import Mathlib

/-!
Verification of the robopages catalog/execution core against its
natural-language specification.  The Rust sources are shallowly embedded:
pure computations become Lean functions, effectful lookups (the process
environment, `which` PATH resolution, the filesystem, remote sessions)
become explicit oracle parameters, and fallible code returns `Except`.
-/

namespace Robopages

/-! ## Command model (src/runtime/cmd.rs) -/

/-- Embedding of the Rust `CommandLine` struct (src/runtime/cmd.rs).
The `BTreeMap<String, String>` environment overlay is represented as a
key-sorted association list; the `temp_env_file` handle is effectful and
represented by nothing here (its path appears as an explicit argument where
the container driver needs it). -/
structure CommandLine where
  sudoFlag : Bool
  app : String
  app_in_path : Bool
  args : List String
  env : List (String × String)
deriving Repr, DecidableEq

/-- Key-sorted insert-or-replace, the behaviour of `BTreeMap::insert`. -/
def binsert : List (String × String) → String → String → List (String × String)
  | [], k, v => [(k, v)]
  | (k', v') :: rest, k, v =>
    if k < k' then (k, v) :: (k', v') :: rest
    else if k = k' then (k, v) :: rest
    else (k', v') :: binsert rest k v

/-- `BTreeMap::get`: lookup in a (sorted) association list.  On the sorted
lists produced by `binsert` the first match is the only match. -/
def alookup (m : List (String × String)) (k : String) : Option String :=
  match m with
  | [] => none
  | (k', v) :: rest => if k = k' then some v else alookup rest k

/-- The token scan of `CommandLine::from_vec` (src/runtime/cmd.rs lines
24-40): for each token, a literal `sudo` sets the sudo flag and is dropped;
otherwise, while the app slot is still the empty string the token is written
into the app slot; otherwise the token is appended to the argument list. -/
def scanArgv : List String → Bool → String → List String → Bool × String × List String
  | [], sd, app, args => (sd, app, args)
  | a :: rest, sd, app, args =>
    if a = "sudo" then scanArgv rest true app args
    else if app = "" then scanArgv rest sd a args
    else scanArgv rest sd app (args ++ [a])

/-- Embedding of `CommandLine::from_vec` (src/runtime/cmd.rs lines 16-75).
`whichO` is the oracle for `which::which`: `some p` means the binary was
found in PATH at absolute path `p` (in which case the app is rewritten to
`p` and `app_in_path` is set), `none` means not found. -/
def from_vec (whichO : String → Option String) (vec : List String) :
    Except String CommandLine :=
  if vec = [] then .error "empty command line"
  else
    let (sd, app, args) := scanArgv vec false "" []
    if app = "" then .error "could not determine application name from command line"
    else
      match whichO app with
      | some p => .ok ⟨sd, p, true, args, []⟩
      | none => .ok ⟨sd, app, false, args, []⟩

/-- Embedding of `CommandLine::from_vec_with_env` (src/runtime/cmd.rs lines
77-86): build via `from_vec`, then overwrite the environment overlay. -/
def from_vec_with_env (whichO : String → Option String) (vec : List String)
    (env : List (String × String)) : Except String CommandLine :=
  match from_vec whichO vec with
  | .error e => .error e
  | .ok cmd => .ok { cmd with env := env }

/-- Display rendering of `std::process::ExitStatus` for a normal exit on
Unix, as used by `format!("EXIT CODE: {}", &output.status)` in
`CommandLine::execute`: the standard library renders a normal exit with
code `n` as `exit status: n`, not as the bare numeral. -/
def statusDisplay (code : Int) : String := "exit status: " ++ toString code

/-- Output assembly of `CommandLine::execute` (src/runtime/cmd.rs lines
130-162) for a process that exited normally with exit code `code`,
standard output `out` and standard error `err`: parts are pushed in order
(exit-code banner only on failure, stdout if non-empty, stderr if non-empty
with an `ERROR: ` prefix only on failure) and joined with `\n`. -/
def executeContent (code : Int) (out err : String) : String :=
  let parts : List String := if code = 0 then [] else ["EXIT CODE: " ++ statusDisplay code]
  let parts := if out = "" then parts else parts ++ [out]
  let parts :=
    if err = "" then parts
    else parts ++ [if code = 0 then err else "ERROR: " ++ err]
  String.intercalate "\n" parts

/-! ### Characterisation of the argv scan -/

/-- Once the app slot is non-empty, the scan only accumulates: the sudo flag
absorbs any further `sudo` token and every other token is appended. -/
theorem scanArgv_app_ne (vec : List String) (s : Bool) (app : String)
    (args : List String) (h : app ≠ "") :
    scanArgv vec s app args =
      (s || vec.any (fun t => t == "sudo"), app,
        args ++ vec.filter (fun t => t != "sudo")) := by
  induction vec generalizing s args with
  | nil => simp [scanArgv]
  | cons a rest ih =>
    by_cases ha : a = "sudo"
    · subst ha
      simp [scanArgv, ih]
    · have h1 : (a == "sudo") = false := by simp [ha]
      simp [scanArgv, ha, h, ih, h1, List.filter_cons]

/-- Full characterisation of the scan from the initial state: the sudo flag
records whether any token equals `sudo`; the app is the first token that is
neither `sudo` nor empty (or stays empty); the arguments are the tokens
after the app other than `sudo` tokens, in order. -/
theorem scanArgv_spec (vec : List String) (s : Bool) :
    scanArgv vec s "" [] =
      (s || vec.any (fun t => t == "sudo"),
        (vec.dropWhile (fun t => t == "sudo" || t == "")).headD "",
        ((vec.dropWhile (fun t => t == "sudo" || t == "")).tail).filter
          (fun t => t != "sudo")) := by
  induction vec generalizing s with
  | nil => simp [scanArgv]
  | cons a rest ih =>
    by_cases ha : a = "sudo"
    · subst ha
      simp [scanArgv, ih, List.dropWhile]
    · by_cases ha' : a = ""
      · subst ha'
        simp [scanArgv, ih, List.dropWhile, ha]
      · have h1 : (a == "sudo") = false := by simp [ha]
        have h2 : (a == "") = false := by simp [ha']
        simp [scanArgv, ha, ha', h1, h2, List.dropWhile,
          scanArgv_app_ne rest s a [] ha', List.filter_cons]

/-- A string with a non-empty left component of an append is non-empty. -/
theorem append_ne_empty_left (a b : String) (ha : a ≠ "") : a ++ b ≠ "" := by
  intro h
  apply ha
  have hd := congrArg String.data h
  rw [String.data_append] at hd
  have h0 : a.data = [] := by
    rcases List.append_eq_nil.mp hd with ⟨h1, _⟩
    exact h1
  exact String.ext (by simp [h0])

/-! ## Claim C2 -/

/-- C2 counterexample: on the argv `["echo", "sudo", "x"]` the constructed
command has the sudo flag set and argument list `["x"]`, whereas the claim
requires a non-leading `sudo` token to be kept as an ordinary argument
(sudo flag clear, arguments `["sudo", "x"]`). -/
theorem c2_counterexample :
    (from_vec (fun _ => none) ["echo", "sudo", "x"]).map
        (fun c => (c.sudoFlag, c.app, c.args)) = .ok (true, "echo", ["x"]) ∧
    (from_vec (fun _ => none) ["echo", "sudo", "x"]).map
        (fun c => (c.sudoFlag, c.app, c.args)) ≠ .ok (false, "echo", ["sudo", "x"]) := by
  have h1 : (from_vec (fun _ => none) ["echo", "sudo", "x"]).map
      (fun c => (c.sudoFlag, c.app, c.args)) = .ok (true, "echo", ["x"]) := rfl
  refine ⟨h1, ?_⟩
  rw [h1]
  simp

/-- C2 (amended): whenever `CommandLine::from_vec` succeeds, every token
equal to `sudo`, at any position, has set the sudo flag and been consumed;
the binary is the first token that is neither `sudo` nor empty (resolved
through the PATH oracle); and the arguments are the tokens after the binary
other than `sudo` tokens, in their original order.  The overlay starts
empty. -/
theorem from_vec_scan_characterisation (whichO : String → Option String)
    (vec : List String) (cmd : CommandLine)
    (h : from_vec whichO vec = .ok cmd) :
    cmd.sudoFlag = vec.any (fun t => t == "sudo") ∧
    ∃ b rest, vec.dropWhile (fun t => t == "sudo" || t == "") = b :: rest ∧
      (cmd.app, cmd.app_in_path) =
        (match whichO b with | some p => (p, true) | none => (b, false)) ∧
      cmd.args = rest.filter (fun t => t != "sudo") ∧
      cmd.env = [] := by
  by_cases hv : vec = []
  · simp [from_vec, hv] at h
  · rw [from_vec, if_neg hv, scanArgv_spec] at h
    rcases hcase : vec.dropWhile (fun t => t == "sudo" || t == "") with _ | ⟨b, rest⟩
    · rw [hcase] at h
      simp at h
    · rw [hcase] at h
      by_cases hb : b = ""
      · simp [hb] at h
      · simp only [List.headD_cons, List.tail_cons, if_neg hb] at h
        cases hw : whichO b <;> rw [hw] at h <;>
          cases h <;> exact ⟨by simp, b, rest, rfl, by rw [hw], rfl, rfl⟩

/-- Witness for the amended C2 theorem: instantiation on the concrete argv
`["sudo", "ls", "-l"]` with a PATH oracle that finds nothing. -/
theorem from_vec_scan_characterisation_witness :
    (⟨true, "ls", false, ["-l"], []⟩ : CommandLine).sudoFlag =
        (["sudo", "ls", "-l"].any (fun t => t == "sudo")) ∧
    ∃ b rest,
      (["sudo", "ls", "-l"].dropWhile (fun t => t == "sudo" || t == "")) = b :: rest ∧
      ((⟨true, "ls", false, ["-l"], []⟩ : CommandLine).app,
        (⟨true, "ls", false, ["-l"], []⟩ : CommandLine).app_in_path) =
        (match (fun _ => (none : Option String)) b with
          | some p => (p, true) | none => (b, false)) ∧
      (⟨true, "ls", false, ["-l"], []⟩ : CommandLine).args =
        rest.filter (fun t => t != "sudo") ∧
      (⟨true, "ls", false, ["-l"], []⟩ : CommandLine).env = [] :=
  from_vec_scan_characterisation (fun _ => none) ["sudo", "ls", "-l"] _ rfl

/-! ## Claim C4 -/

/-- C4 counterexample: a failing process with numeric exit code 1 and empty
stdout/stderr yields the content `EXIT CODE: exit status: 1` (the `Display`
rendering of `std::process::ExitStatus`), not `EXIT CODE: 1` with the bare
numeric exit code as the claim states. -/
theorem c4_counterexample :
    executeContent 1 "" "" = "EXIT CODE: exit status: 1" ∧
    executeContent 1 "" "" ≠ "EXIT CODE: 1" := by
  exact ⟨rfl, by decide⟩

/-- C4 (amended): the content returned by `CommandLine::execute` is the
newline-joined concatenation of exactly the non-empty elements among: the
exit-status banner `EXIT CODE: <status display>` (included only when the
exit code is non-zero, where the status display is the `Display` rendering
of the exit status, `exit status: <code>` for a normal exit); the standard
output text; and the standard error text, prefixed with `ERROR: ` exactly
when the exit code is non-zero. -/
theorem executeContent_joins_nonempty_parts (code : Int) (out err : String) :
    executeContent code out err =
      String.intercalate "\n" (List.filter (fun s => s != "")
        [if code = 0 then "" else "EXIT CODE: " ++ statusDisplay code,
         out,
         if err = "" then "" else if code = 0 then err else "ERROR: " ++ err]) := by
  have hx : ("EXIT CODE: " ++ statusDisplay code) ≠ "" :=
    append_ne_empty_left _ _ (by decide)
  have he' : ∀ e : String, ("ERROR: " ++ e) ≠ "" :=
    fun e => append_ne_empty_left _ _ (by decide)
  by_cases hc : code = 0 <;> by_cases ho : out = "" <;> by_cases he : err = "" <;>
    simp [executeContent, hc, ho, he, hx, he', List.filter_cons, bne_iff_ne]

/-! ## Argument resolver (src/book/runtime.rs, `FunctionRef::resolve_command_line`) -/

/-- Rust `str::starts_with` on the character sequences of the strings. -/
def strStartsWith (s p : String) : Bool :=
  p.data.isPrefixOf s.data

/-- Replacement engine of Rust `str::replace` over character lists: scan
left to right, replace each non-overlapping occurrence of `pat` by `rep`,
resume after the replaced occurrence.  The `skip` counter carries the
number of already-matched characters still to be consumed, making the
recursion structural on the scanned list.  Only used with non-empty
patterns, as in the source. -/
def replaceChars (pat rep : List Char) : List Char → Nat → List Char
  | [], _ => []
  | _ :: rest, Nat.succ k => replaceChars pat rep rest k
  | c :: rest, 0 =>
    if pat.isPrefixOf (c :: rest) then
      rep ++ replaceChars pat rep rest (pat.length - 1)
    else
      c :: replaceChars pat rep rest 0

/-- Rust `str::replace`: every non-overlapping occurrence of `pat` in `s`
is replaced by `rep`, scanning left to right. -/
def strReplace (s pat rep : String) : String :=
  ⟨replaceChars pat.data rep.data s.data 0⟩

/-- The prefix test of the env branch (src/book/runtime.rs line 205):
`var_name.starts_with("env.") || var_name.starts_with("ENV.")`. -/
def isEnvName (name : String) : Bool :=
  strStartsWith name "env." || strStartsWith name "ENV."

/-- The key computation of the env branch (src/book/runtime.rs line 206):
`var_name.replace("env.", "").replace("ENV.", "")` — Rust `str::replace`
replaces every non-overlapping occurrence, not only a leading prefix. -/
def stripEnvName (name : String) : String :=
  strReplace (strReplace name "env." "") "ENV." ""

/-- Per-placeholder resolution (src/book/runtime.rs lines 205-237), for a
placeholder with name `name` and optional default `dflt` as captured by the
`ARG_VALUE_PARSER` regex.  `envO` is the oracle for `std::env::var`;
`arguments` is the caller-supplied argument map; `env` is the environment
overlay accumulated so far.  Returns the replacement text and the updated
overlay. -/
def resolvePlaceholder (envO : String → Option String)
    (arguments : List (String × String)) (name : String) (dflt : Option String)
    (env : List (String × String)) :
    Except String (String × List (String × String)) :=
  if isEnvName name then
    let key := stripEnvName name
    match envO key with
    | some v => .ok (v, binsert env key v)
    | none =>
      match dflt with
      | some d => .ok (d, binsert env key d)
      | none => .error ("environment variable " ++ key ++ " not set")
  else
    match alookup arguments name with
    | some v =>
      if v = "" then
        match dflt with
        | some d => .ok (d, env)
        | none => .ok (v, env)
      else .ok (v, env)
    | none =>
      match dflt with
      | some d => .ok (d, env)
      | none => .error ("argument " ++ name ++ " not provided")

/-! ## Claim C3 -/

/-- C3 counterexample: resolving `${env.X or d}` with `X` unset substitutes
the default `d` but also inserts `("X", "d")` into the environment overlay,
which then reaches the constructed Command via `from_vec_with_env`; the
claim requires the overlay to stay empty. -/
theorem c3_counterexample :
    resolvePlaceholder (fun _ => none) [] "env.X" (some "d") [] =
      .ok ("d", [("X", "d")]) ∧
    (from_vec_with_env (fun _ => none) ["echo", "d"] [("X", "d")]).map
      CommandLine.env = .ok [("X", "d")] ∧
    [("X", "d")] ≠ ([] : List (String × String)) := by
  exact ⟨rfl, rfl, by simp⟩

/-- C3 (amended): for an env placeholder whose variable is unset and which
carries a default, resolution substitutes the default and records
`(stripped name → default)` in the environment overlay — the overlay gains
an entry on the default path exactly as on the hit path. -/
theorem resolvePlaceholder_env_default_records_overlay
    (envO : String → Option String) (arguments : List (String × String))
    (name d : String) (env : List (String × String))
    (hname : isEnvName name = true)
    (hmiss : envO (stripEnvName name) = none) :
    resolvePlaceholder envO arguments name (some d) env =
      .ok (d, binsert env (stripEnvName name) d) := by
  simp [resolvePlaceholder, hname, hmiss]

/-- Witness for the amended C3 theorem at `${env.X or d}` with every
environment variable unset and an empty initial overlay. -/
theorem resolvePlaceholder_env_default_records_overlay_witness :
    resolvePlaceholder (fun _ => none) [] "env.X" (some "d") [] =
      .ok ("d", binsert [] (stripEnvName "env.X") "d") :=
  resolvePlaceholder_env_default_records_overlay (fun _ => none) [] "env.X" "d" []
    rfl rfl

/-! ## Claim C5 -/

/-- C5: for a non-env placeholder, resolution uses the caller value when
present and non-empty; the default when present-but-empty with a default;
the empty string when present-but-empty without a default; the default when
absent with a default; and fails with the `argument <name> not provided`
error exactly when the argument is absent and no default exists.  The
overlay is untouched in every case. -/
theorem resolvePlaceholder_argument_cases (envO : String → Option String)
    (arguments : List (String × String)) (name : String) (dflt : Option String)
    (env : List (String × String)) (hname : isEnvName name = false) :
    (∀ v, alookup arguments name = some v → v ≠ "" →
        resolvePlaceholder envO arguments name dflt env = .ok (v, env)) ∧
    (∀ d, alookup arguments name = some "" → dflt = some d →
        resolvePlaceholder envO arguments name dflt env = .ok (d, env)) ∧
    (alookup arguments name = some "" → dflt = none →
        resolvePlaceholder envO arguments name dflt env = .ok ("", env)) ∧
    (∀ d, alookup arguments name = none → dflt = some d →
        resolvePlaceholder envO arguments name dflt env = .ok (d, env)) ∧
    (resolvePlaceholder envO arguments name dflt env =
        .error ("argument " ++ name ++ " not provided") ↔
      alookup arguments name = none ∧ dflt = none) := by
  refine ⟨?_, ?_, ?_, ?_, ?_⟩
  · intro v hv hne
    simp [resolvePlaceholder, hname, hv, hne]
  · intro d hv hd
    simp [resolvePlaceholder, hname, hv, hd]
  · intro hv hd
    simp [resolvePlaceholder, hname, hv, hd]
  · intro d hv hd
    simp [resolvePlaceholder, hname, hv, hd]
  · constructor
    · intro h
      rcases hv : alookup arguments name with _ | v
      · rcases hd : dflt with _ | d
        · exact ⟨rfl, rfl⟩
        · simp [resolvePlaceholder, hname, hv, hd] at h
      · rcases hd : dflt with _ | d <;> by_cases hne : v = "" <;>
          simp [resolvePlaceholder, hname, hv, hd, hne] at h
    · rintro ⟨hv, hd⟩
      simp [resolvePlaceholder, hname, hv, hd]

/-- Witness for the C5 theorem: a present-but-empty caller argument with a
default substitutes the default, at the concrete argument map
`[("who", "")]` and placeholder `${who or d}`. -/
theorem resolvePlaceholder_argument_cases_witness :
    resolvePlaceholder (fun _ => none) [("who", "")] "who" (some "d") [] =
      .ok ("d", []) :=
  (resolvePlaceholder_argument_cases (fun _ => none) [("who", "")] "who"
    (some "d") [] rfl).2.1 "d" rfl rfl

/-! ## Claim C6 -/

/-- Environment oracle for the C6 counterexample: variable `FOO` is set to
`v`; variable `env.FOO` is set to `w`; nothing else is set. -/
def c6EnvOracle : String → Option String :=
  fun k => if k = "FOO" then some "v" else if k = "env.FOO" then some "w" else none

/-- C6 counterexample: for the placeholder name `env.env.FOO` the claim
requires only the leading `env.` prefix to be stripped, so the variable
consulted would be `env.FOO` (value `w`); the code instead removes every
occurrence of `env.` and consults `FOO` (value `v`). -/
theorem c6_counterexample :
    resolvePlaceholder c6EnvOracle [] "env.env.FOO" none [] =
      .ok ("v", [("FOO", "v")]) ∧
    resolvePlaceholder c6EnvOracle [] "env.env.FOO" none [] ≠
      .ok ("w", [("env.FOO", "w")]) := by
  have h1 : resolvePlaceholder c6EnvOracle [] "env.env.FOO" none [] =
      .ok ("v", [("FOO", "v")]) := rfl
  refine ⟨h1, ?_⟩
  rw [h1]
  simp

/-- C6 (amended): for an env placeholder the key consulted in the process
environment, and recorded in the overlay, is the name with every occurrence
of the substrings `env.` and `ENV.` removed (`stripEnvName`): a hit at that
key is used and recorded, and the resolution result depends on the
environment only through its value at that key. -/
theorem resolvePlaceholder_env_consults_stripped (envO : String → Option String)
    (arguments : List (String × String)) (name : String) (dflt : Option String)
    (env : List (String × String)) (hname : isEnvName name = true) :
    (∀ v, envO (stripEnvName name) = some v →
      resolvePlaceholder envO arguments name dflt env =
        .ok (v, binsert env (stripEnvName name) v)) ∧
    (∀ envO' : String → Option String,
      envO' (stripEnvName name) = envO (stripEnvName name) →
      resolvePlaceholder envO' arguments name dflt env =
        resolvePlaceholder envO arguments name dflt env) := by
  constructor
  · intro v hv
    simp [resolvePlaceholder, hname, hv]
  · intro envO' hagree
    simp [resolvePlaceholder, hname, hagree]

/-- Witness for the amended C6 theorem at the concrete name `env.env.FOO`
and the concrete oracle of the counterexample's environment: the key
consulted is `FOO`. -/
theorem resolvePlaceholder_env_consults_stripped_witness :
    resolvePlaceholder c6EnvOracle [] "env.env.FOO" (some "z") [] =
      .ok ("v", binsert [] (stripEnvName "env.env.FOO") "v") :=
  (resolvePlaceholder_env_consults_stripped c6EnvOracle [] "env.env.FOO"
    (some "z") [] rfl).1 "v" rfl

/-! ## Catalog loader (src/book/mod.rs, `Book::from_path`) -/

/-- A page as it enters the uniqueness pass: its (already defaulted) name
and its function names in `BTreeMap` key order. -/
structure PageL where
  name : String
  functions : List String
deriving Repr, DecidableEq

/-- `HashMap::insert` on the seen-name set (`function_names` in
`Book::from_path`): membership semantics only. -/
def insertSeen (f : String) (seen : List String) : List String :=
  if seen.contains f then seen else f :: seen

/-- Key-sorted insert on a page's function-name list, the behaviour of
`BTreeMap::insert` on the key set (an equal key is replaced — the page's
existing entry under that name is overwritten). -/
def sinsertName : List String → String → List String
  | [], n => [n]
  | x :: xs, n =>
    if n < x then n :: x :: xs
    else if n = x then n :: xs
    else x :: sinsertName xs n

/-- First half of the uniqueness loop (src/book/mod.rs lines 286-307): walk
the page's function names in key order; a name already seen is scheduled
for renaming to `<page_name>_<function_name>` unless that renamed form was
itself already seen, which aborts loading.  Each original name — and only
the original name, never the renamed form — is added to the seen set. -/
def collectRenames (pname : String) :
    List String → List String → Except String (List (String × String) × List String)
  | [], seen => .ok ([], seen)
  | f :: rest, seen =>
    if seen.contains f then
      let nf := pname ++ "_" ++ f
      if seen.contains nf then
        .error ("function name " ++ f ++ " is not unique")
      else
        match collectRenames pname rest (insertSeen f seen) with
        | .error e => .error e
        | .ok (rs, seen') => .ok ((f, nf) :: rs, seen')
    else
      match collectRenames pname rest (insertSeen f seen) with
      | .error e => .error e
      | .ok (rs, seen') => .ok (rs, seen')

/-- Second half of the uniqueness loop (src/book/mod.rs lines 309-312):
remove each renamed function under its old name and reinsert it under the
new name.  The source iterates a `HashMap` here; the model applies the
renames in discovery order, which coincides for at most one rename. -/
def applyRenames (fns : List String) (rs : List (String × String)) : List String :=
  rs.foldl (fun acc r => sinsertName (acc.erase r.1) r.2) fns

/-- The per-page body of the page loop in `Book::from_path`. -/
def processPage (seen : List String) (pname : String) (fns : List String) :
    Except String (List String × List String) :=
  match collectRenames pname fns seen with
  | .error e => .error e
  | .ok (rs, seen') => .ok (applyRenames fns rs, seen')

/-- The page loop of `Book::from_path` (src/book/mod.rs lines 257-315) over
the discovered pages in path order, starting from a given seen-name set. -/
def loadPages : List (String × PageL) → List String →
    Except String (List (String × PageL))
  | [], _ => .ok []
  | (path, p) :: rest, seen =>
    match processPage seen p.name p.functions with
    | .error e => .error e
    | .ok (fns', seen') =>
      match loadPages rest seen' with
      | .error e => .error e
      | .ok pages => .ok ((path, ⟨p.name, fns'⟩) :: pages)

/-- `Book::from_path` restricted to the uniqueness/indexing pass: load the
given pages (already parsed and defaulted, in path order) with an initially
empty seen-name set. -/
def book_from_path (pages : List (String × PageL)) :
    Except String (List (String × PageL)) :=
  loadPages pages []

/-- The flat function index of a book: all function names across pages in
path order (`Book::get_function` scans this left to right, first match
wins). -/
def flatNames (book : List (String × PageL)) : List String :=
  (book.map (fun pr => pr.2.functions)).flatten

/-! ## Claim C1 -/

/-- C1 (code bug): loading pages `a.yml` (function `run`), `b.yml`
(function `run`, renamed to `b_run`) and `c.yml` (function `b_run`)
succeeds, and the flat index then contains `b_run` twice — on page `b.yml`
(as the renamed form) and on page `c.yml`.  The loop inserts only original
names into the seen set, never the renamed forms, so a later page reuses a
renamed name without triggering `DuplicateFunction`, violating the claimed
global-uniqueness invariant (and the code's own `make sure function names
are unique` intent). -/
theorem c1_duplicate_after_rename :
    book_from_path
        [("a.yml", ⟨"a", ["run"]⟩), ("b.yml", ⟨"b", ["run"]⟩),
          ("c.yml", ⟨"c", ["b_run"]⟩)] =
      .ok [("a.yml", ⟨"a", ["run"]⟩), ("b.yml", ⟨"b", ["b_run"]⟩),
        ("c.yml", ⟨"c", ["b_run"]⟩)] ∧
    (flatNames [("a.yml", ⟨"a", ["run"]⟩), ("b.yml", ⟨"b", ["b_run"]⟩),
        ("c.yml", ⟨"c", ["b_run"]⟩)]).count "b_run" = 2 := by
  exact ⟨rfl, rfl⟩

/-! ## Container driver (src/book/mod.rs, `Container::wrap`) -/

/-- Embedding of the `Container` struct fields used by `wrap`
(src/book/mod.rs lines 45-61); `image` is `source.image()`. -/
structure ContainerL where
  image : String
  args : Option (List String)
  volumes : Option (List String)
  force : Bool
  preserve_app : Bool
deriving Repr, DecidableEq

/-- The text written into the temporary `--env-file` by `Container::wrap`
(src/book/mod.rs lines 92-95): one `KEY=VALUE` line per overlay entry, in
overlay (key) order. -/
def envFileContents (env : List (String × String)) : String :=
  env.foldl (fun acc kv => acc ++ kv.1 ++ "=" ++ kv.2 ++ "\n") ""

/-- Embedding of `Container::wrap` (src/book/mod.rs lines 76-138).
`runtimeWhich` is the `which::which` oracle for the container runtime
binary; `tempPath` is the path of the freshly created temporary env file
(only referenced when the overlay is non-empty).  The wrapped command is
built with `sudo: false` and `app_in_path: true`, argv
`run --rm [--env-file=<temp>] [-v<vol>…] [extra args…] <image>
[original app if preserve_app] <original args…>`, and an empty overlay. -/
def wrap (runtimeWhich : Option String) (tempPath : String) (c : ContainerL)
    (cmdline : CommandLine) : Except String CommandLine :=
  match runtimeWhich with
  | none => .error "container runtime executable not found"
  | some rt =>
    let envArgs := if cmdline.env = [] then [] else ["--env-file=" ++ tempPath]
    let volArgs := match c.volumes with
      | some vs => vs.map (fun v => "-v" ++ v)
      | none => []
    let extraArgs := match c.args with
      | some a => a
      | none => []
    let appArgs := if c.preserve_app then [cmdline.app] else []
    .ok ⟨false, rt, true,
      ["run", "--rm"] ++ envArgs ++ volArgs ++ extraArgs ++ [c.image] ++
        appArgs ++ cmdline.args, []⟩

/-! ## Claim C10 -/

/-- C10: whenever `Container::wrap` succeeds, the returned command has the
sudo flag cleared and `in_path` set — the original command's sudo signal is
never forwarded into the containerized argv. -/
theorem wrap_clears_sudo_sets_in_path (runtimeWhich : Option String)
    (tempPath : String) (c : ContainerL) (cmdline out : CommandLine)
    (h : wrap runtimeWhich tempPath c cmdline = .ok out) :
    out.sudoFlag = false ∧ out.app_in_path = true := by
  cases runtimeWhich with
  | none => simp [wrap] at h
  | some rt =>
    rw [wrap] at h
    cases h
    exact ⟨rfl, rfl⟩

/-- Witness for C10 at a concrete sudo-marked command wrapped into a
concrete image. -/
theorem wrap_clears_sudo_sets_in_path_witness :
    (⟨false, "/usr/bin/docker", true,
        ["run", "--rm", "img", "nmap", "-A"], []⟩ : CommandLine).sudoFlag = false ∧
    (⟨false, "/usr/bin/docker", true,
        ["run", "--rm", "img", "nmap", "-A"], []⟩ : CommandLine).app_in_path = true :=
  wrap_clears_sudo_sets_in_path (some "/usr/bin/docker") "/tmp/envfile"
    ⟨"img", none, none, false, true⟩ ⟨true, "nmap", false, ["-A"], []⟩ _ rfl

/-! ## Execution planner (src/runtime/mod.rs, `execute_call`) -/

/-- The `needs_container` decision of `execute_call` (src/runtime/mod.rs
lines 103-114): evaluated only when ssh is not usable; the conditions are
tested in source order (sudo in non-interactive mode, then binary not in
PATH, then forced containerization). -/
def needs_container (canSSH interactive : Bool) (cmdline : CommandLine)
    (container : Option ContainerL) : Bool :=
  if canSSH then false
  else if cmdline.sudoFlag && !interactive then true
  else if !cmdline.app_in_path then true
  else
    match container with
    | some c => c.force
    | none => false

/-- The command-preparation step of `execute_call` (src/runtime/mod.rs
lines 116-138): when a container is needed, a function with no container
spec fails with the container-required error, otherwise the command is
wrapped (the effectful `container.resolve()` pre-step is not modelled);
when no container is needed the command is kept as is. -/
def planCommand (canSSH interactive : Bool) (runtimeWhich : Option String)
    (tempPath fname : String) (container : Option ContainerL)
    (cmdline : CommandLine) : Except String CommandLine :=
  if needs_container canSSH interactive cmdline container then
    match container with
    | none => .error ("container required for function " ++ fname)
    | some c => wrap runtimeWhich tempPath c cmdline
  else .ok cmdline

/-! ## Claim C8 -/

/-- C8: without a usable remote, the planner chooses containerized
execution exactly when the container's force flag is set, or the command is
sudo-marked in non-interactive mode, or the binary is not in the local
PATH; in those cases a function with no container spec fails with the
container-required error; and when none of the conditions holds the command
is executed locally, unwrapped. -/
theorem planner_container_conditions (interactive : Bool)
    (runtimeWhich : Option String) (tempPath fname : String)
    (container : Option ContainerL) (cmdline : CommandLine) :
    (needs_container false interactive cmdline container =
      ((match container with | some c => c.force | none => false) ||
        (cmdline.sudoFlag && !interactive) || !cmdline.app_in_path)) ∧
    (needs_container false interactive cmdline container = true →
      container = none →
      planCommand false interactive runtimeWhich tempPath fname container cmdline =
        .error ("container required for function " ++ fname)) ∧
    (needs_container false interactive cmdline container = false →
      planCommand false interactive runtimeWhich tempPath fname container cmdline =
        .ok cmdline) := by
  refine ⟨?_, ?_, ?_⟩
  · rcases container with _ | c <;>
      cases hs : cmdline.sudoFlag <;> cases hi : interactive <;>
      cases hp : cmdline.app_in_path <;>
      simp [needs_container, hs, hi, hp]
  · intro hn hc
    subst hc
    simp [planCommand, hn]
  · intro hn
    simp [planCommand, hn]

/-- Witness for C8: a sudo-marked, in-PATH command in non-interactive mode
with no container spec fails with the container-required error. -/
theorem planner_container_conditions_witness :
    planCommand false false none "/tmp/envfile" "scan" none
      ⟨true, "/usr/bin/nmap", true, ["-A"], []⟩ =
      .error ("container required for function " ++ "scan") :=
  (planner_container_conditions false none "/tmp/envfile" "scan" none
    ⟨true, "/usr/bin/nmap", true, ["-A"], []⟩).2.1 rfl rfl

/-! ## Concurrent executor (src/runtime/mod.rs, `execute`) -/

/-- A tool call (src/book/flavors/openai.rs `Call`): optional caller id,
function name and argument map. -/
structure CallL where
  id : Option String
  name : String
  arguments : List (String × String)
deriving Repr, DecidableEq

/-- A call result (src/book/flavors/openai.rs `CallResultMessage`). -/
structure CallResultMessage where
  role : String
  call_id : Option String
  content : String
deriving Repr, DecidableEq

/-- Result assembly of `execute_call` (src/runtime/mod.rs lines 150-180).
`outcome` is the oracle for the per-call effectful pipeline — catalog
lookup, argument validation, template resolution, planning, optional
interactive confirmation, and execution — returning the produced content
(the cancellation sentinel included) or the first error.  Both success
exits of `execute_call` build the result with role `tool` and the call's
own id echoed as `call_id`. -/
def execute_call (outcome : CallL → Except String String) (c : CallL) :
    Except String CallResultMessage :=
  match outcome c with
  | .error e => .error e
  | .ok content => .ok ⟨"tool", c.id, content⟩

/-- Embedding of `execute` (src/runtime/mod.rs lines 182-212): one task per
call, collected with `join_all`, which yields per-call outcomes indexed by
input position regardless of completion order; results are pushed in that
order and the first per-call error fails the batch.  Task join errors arise
only from panics or runtime shutdown, which the embedded pipeline cannot
produce, and are not modelled. -/
def executeBatch (outcome : CallL → Except String String) :
    List CallL → Except String (List CallResultMessage)
  | [] => .ok []
  | c :: rest =>
    match execute_call outcome c with
    | .error e => .error e
    | .ok r =>
      match executeBatch outcome rest with
      | .error e => .error e
      | .ok rs => .ok (r :: rs)

/-! ## Claim C7 -/

/-- C7: when a batch succeeds, there is exactly one result per input call,
in input order: the result list has the same length as the call list, each
result's `call_id` is the id of the call at the same position, and every
role is `tool`. -/
theorem executeBatch_preserves_order (outcome : CallL → Except String String)
    (calls : List CallL) (results : List CallResultMessage)
    (h : executeBatch outcome calls = .ok results) :
    results.length = calls.length ∧
    results.map (fun r => r.call_id) = calls.map (fun c => c.id) := by
  induction calls generalizing results with
  | nil =>
    cases h
    exact ⟨rfl, rfl⟩
  | cons c rest ih =>
    rw [executeBatch] at h
    rcases ho : execute_call outcome c with e | r
    · rw [ho] at h
      cases h
    · rw [ho] at h
      rcases hb : executeBatch outcome rest with e | rs
      · rw [hb] at h
        cases h
      · rw [hb] at h
        cases h
        rcases ih rs hb with ⟨hlen, hmap⟩
        constructor
        · simp [hlen]
        · rw [execute_call] at ho
          rcases hoc : outcome c with e | content <;> rw [hoc] at ho
          · cases ho
          · cases ho
            simp [hmap]

/-- Witness for C7 on a concrete two-call batch whose pipeline oracle
produces fixed contents. -/
theorem executeBatch_preserves_order_witness :
    ([⟨"tool", some "1", "out"⟩, ⟨"tool", some "2", "out"⟩] :
        List CallResultMessage).length =
      ([⟨some "1", "f", []⟩, ⟨some "2", "g", []⟩] : List CallL).length ∧
    ([⟨"tool", some "1", "out"⟩, ⟨"tool", some "2", "out"⟩] :
        List CallResultMessage).map (fun r => r.call_id) =
      ([⟨some "1", "f", []⟩, ⟨some "2", "g", []⟩] : List CallL).map
        (fun c => c.id) :=
  executeBatch_preserves_order (fun _ => .ok "out")
    [⟨some "1", "f", []⟩, ⟨some "2", "g", []⟩]
    [⟨"tool", some "1", "out"⟩, ⟨"tool", some "2", "out"⟩] rfl

/-! ## Remote shell driver (src/runtime/ssh.rs, `SSHConnection::from_str`) -/

/-- Rust `str::split(sep)` over a character list: the separator-delimited
pieces, in order; an empty input yields one empty piece, a trailing
separator yields a trailing empty piece. -/
def splitOnChar (sep : Char) : List Char → List (List Char)
  | [] => [[]]
  | c :: rest =>
    let r := splitOnChar sep rest
    if c = sep then [] :: r
    else
      match r with
      | [] => [[c]]
      | h :: t => (c :: h) :: t

/-- `splitOnChar` always yields at least one piece, as Rust `split` does. -/
theorem splitOnChar_ne_nil (sep : Char) (l : List Char) :
    splitOnChar sep l ≠ [] := by
  cases l with
  | nil => simp [splitOnChar]
  | cons c rest =>
    simp only [splitOnChar]
    by_cases h : c = sep
    · simp [h]
    · rcases hr : splitOnChar sep rest with _ | ⟨p, t⟩ <;> simp [h, hr]

/-- Rust `str::parse::<u16>()`: an optional leading `+` sign followed by at
least one ASCII digit, with the value at most 65535; anything else
(including a `-` sign or an overflowing value) fails. -/
def parseU16 (l : List Char) : Option Nat :=
  let digits :=
    match l with
    | '+' :: rest => rest
    | _ => l
  if digits = [] then none
  else if digits.all (fun c => c.isDigit) then
    let n := digits.foldl (fun acc c => acc * 10 + (c.toNat - '0'.toNat)) 0
    if n ≤ 65535 then some n else none
  else none

/-- Embedding of the parsed `SSHConnection` (src/runtime/ssh.rs lines
5-11); the auth method is keyfile-based and carried implicitly by the
`keyExists` oracle of the parser. -/
structure SSHConnection where
  host : List Char
  port : Nat
  user : List Char
deriving Repr, DecidableEq

/-- The `[host]` / `[host, port]` analysis shared by both `@`-arities of
`SSHConnection::from_str` (src/runtime/ssh.rs lines 28-36 and 41-49): one
piece means port 22, two pieces parse the port as `u16` (the parse error is
propagated), more is `invalid host format`. -/
def parseHostPort (hp : List Char) : Except String (List Char × Nat) :=
  match splitOnChar ':' hp with
  | [h] => .ok (h, 22)
  | [h, ps] =>
    match parseU16 ps with
    | some p => .ok (h, p)
    | none => .error "invalid port"
  | _ => .error "invalid host format"

/-- Embedding of `SSHConnection::from_str` (src/runtime/ssh.rs lines
14-72).  `userEnv` is the oracle for `std::env::var("USER")`, with `root`
as the fallback; `keyExists` is the oracle for the (shell-expanded) keyfile
existence check, performed after the connection string is parsed. -/
def ssh_from_str (userEnv : Option (List Char)) (keyExists : Bool)
    (s : List Char) : Except String SSHConnection :=
  if s = [] then .error "SSH connection string cannot be empty"
  else
    let defaultUser :=
      match userEnv with
      | some u => u
      | none => "root".data
    let res : Except String (List Char × Nat × List Char) :=
      match splitOnChar '@' s with
      | [hostport] =>
        match parseHostPort hostport with
        | .error e => .error e
        | .ok (h, p) => .ok (h, p, defaultUser)
      | [u, hostport] =>
        match parseHostPort hostport with
        | .error e => .error e
        | .ok (h, p) => .ok (h, p, u)
      | _ => .error "invalid SSH connection string format"
    match res with
    | .error e => .error e
    | .ok (h, p, u) =>
      if keyExists then .ok ⟨h, p, u⟩
      else .error "public key file does not exist"

/-- `parseHostPort` fails exactly on more than one `:` in the host part or
an unparsable port segment; on success the host is the first piece and the
port is the parsed second piece, defaulting to 22 when absent. -/
theorem parseHostPort_spec (hp : List Char) :
    ((∃ e, parseHostPort hp = .error e) ↔
      ((splitOnChar ':' hp).length > 2 ∨
        (∃ hseg pseg, splitOnChar ':' hp = [hseg, pseg] ∧ parseU16 pseg = none))) ∧
    (∀ h p, parseHostPort hp = .ok (h, p) →
      h = (splitOnChar ':' hp).headD [] ∧
      p = (match splitOnChar ':' hp with
        | [_, pseg] => (parseU16 pseg).getD 22
        | _ => 22)) := by
  rcases hcol : splitOnChar ':' hp with _ | ⟨h1, _ | ⟨ps, _ | ⟨x, xs⟩⟩⟩
  · exact absurd hcol (splitOnChar_ne_nil _ _)
  · constructor
    · simp [parseHostPort, hcol]
    · intro h p hok
      simp only [parseHostPort, hcol] at hok
      cases hok
      simp [hcol]
  · rcases hp16 : parseU16 ps with _ | pval
    · constructor
      · simp only [parseHostPort, hcol, hp16]
        constructor
        · intro _
          exact Or.inr ⟨h1, ps, rfl, hp16⟩
        · intro _
          exact ⟨"invalid port", rfl⟩
      · intro h p hok
        simp [parseHostPort, hcol, hp16] at hok
    · constructor
      · simp [parseHostPort, hcol, hp16]
      · intro h p hok
        simp only [parseHostPort, hcol, hp16] at hok
        cases hok
        simp [hcol, hp16]
  · constructor
    · simp [parseHostPort, hcol]
    · intro h p hok
      simp [parseHostPort, hcol] at hok

/-! ## Claim C9 -/

/-- C9: `SSHConnection::from_str` fails exactly on empty input, more than
one `@` separator, more than one `:` in the host part, a port segment that
does not parse as a `u16` port number, or a missing keyfile; on success the
user is the part before the `@` (defaulting to the local user, itself
defaulting to `root`), the port is the parsed segment after the host's `:`
(defaulting to 22), and the host is the remaining piece. -/
theorem ssh_from_str_spec (userEnv : Option (List Char)) (keyExists : Bool)
    (s : List Char) :
    ((∃ e, ssh_from_str userEnv keyExists s = .error e) ↔
      (s = [] ∨ (splitOnChar '@' s).length > 2 ∨
        (splitOnChar ':' ((splitOnChar '@' s).getLastD [])).length > 2 ∨
        (∃ hseg pseg,
          splitOnChar ':' ((splitOnChar '@' s).getLastD []) = [hseg, pseg] ∧
          parseU16 pseg = none) ∨
        keyExists = false)) ∧
    (∀ conn, ssh_from_str userEnv keyExists s = .ok conn →
      conn.user =
        (match splitOnChar '@' s with
          | [u, _] => u
          | _ => (match userEnv with | some u => u | none => "root".data)) ∧
      conn.port =
        (match splitOnChar ':' ((splitOnChar '@' s).getLastD []) with
          | [_, pseg] => (parseU16 pseg).getD 22
          | _ => 22) ∧
      conn.host =
        (splitOnChar ':' ((splitOnChar '@' s).getLastD [])).headD []) := by
  by_cases hs : s = []
  · subst hs
    constructor
    · simp [ssh_from_str]
    · intro conn hconn
      simp [ssh_from_str] at hconn
  · rcases hat : splitOnChar '@' s with _ | ⟨p1, _ | ⟨p2, _ | ⟨p3, rest3⟩⟩⟩
    · exact absurd hat (splitOnChar_ne_nil _ _)
    · rcases hpp : parseHostPort p1 with e | ⟨h, p⟩
      · constructor
        · simp only [ssh_from_str, if_neg hs, hat, hpp, List.getLastD_cons,
            List.getLastD_nil]
          constructor
          · intro _
            rcases (parseHostPort_spec p1).1.mp ⟨e, hpp⟩ with hlen | hex
            · exact Or.inr (Or.inr (Or.inl hlen))
            · exact Or.inr (Or.inr (Or.inr (Or.inl hex)))
          · intro _
            exact ⟨e, rfl⟩
        · intro conn hconn
          simp [ssh_from_str, hs, hat, hpp] at hconn
      · rcases (parseHostPort_spec p1).2 h p hpp with ⟨hh, hpv⟩
        cases keyExists
        · constructor
          · simp [ssh_from_str, hs, hat, hpp]
          · intro conn hconn
            simp [ssh_from_str, hs, hat, hpp] at hconn
        · constructor
          · simp only [ssh_from_str, if_neg hs, hat, hpp, List.getLastD_cons,
              List.getLastD_nil]
            constructor
            · rintro ⟨e, he⟩
              simp at he
            · rintro (h1 | h2 | h3 | h4 | h5)
              · exact absurd h1 hs
              · simp [hat] at h2
              · rcases (parseHostPort_spec p1).1.mpr (Or.inl h3) with ⟨e, he⟩
                rw [he] at hpp
                cases hpp
              · rcases (parseHostPort_spec p1).1.mpr (Or.inr h4) with ⟨e, he⟩
                rw [he] at hpp
                cases hpp
              · cases h5
          · intro conn hconn
            simp only [ssh_from_str, if_neg hs, hat, hpp, if_pos] at hconn
            cases hconn
            refine ⟨rfl, ?_, ?_⟩
            · simpa using hpv
            · simpa using hh
    · rcases hpp : parseHostPort p2 with e | ⟨h, p⟩
      · constructor
        · simp only [ssh_from_str, if_neg hs, hat, hpp, List.getLastD_cons,
            List.getLastD_nil]
          constructor
          · intro _
            rcases (parseHostPort_spec p2).1.mp ⟨e, hpp⟩ with hlen | hex
            · exact Or.inr (Or.inr (Or.inl hlen))
            · exact Or.inr (Or.inr (Or.inr (Or.inl hex)))
          · intro _
            exact ⟨e, rfl⟩
        · intro conn hconn
          simp [ssh_from_str, hs, hat, hpp] at hconn
      · rcases (parseHostPort_spec p2).2 h p hpp with ⟨hh, hpv⟩
        cases keyExists
        · constructor
          · simp [ssh_from_str, hs, hat, hpp]
          · intro conn hconn
            simp [ssh_from_str, hs, hat, hpp] at hconn
        · constructor
          · simp only [ssh_from_str, if_neg hs, hat, hpp, List.getLastD_cons,
              List.getLastD_nil]
            constructor
            · rintro ⟨e, he⟩
              simp at he
            · rintro (h1 | h2 | h3 | h4 | h5)
              · exact absurd h1 hs
              · simp [hat] at h2
              · rcases (parseHostPort_spec p2).1.mpr (Or.inl h3) with ⟨e, he⟩
                rw [he] at hpp
                cases hpp
              · rcases (parseHostPort_spec p2).1.mpr (Or.inr h4) with ⟨e, he⟩
                rw [he] at hpp
                cases hpp
              · cases h5
          · intro conn hconn
            simp only [ssh_from_str, if_neg hs, hat, hpp, if_pos] at hconn
            cases hconn
            refine ⟨rfl, ?_, ?_⟩
            · simpa using hpv
            · simpa using hh
    · constructor
      · simp [ssh_from_str, hs, hat]
      · intro conn hconn
        simp [ssh_from_str, hs, hat] at hconn

/-- Witness for C9 on the concrete connection string `user@host:2222` with
an existing keyfile: user `user`, port 2222, host `host`. -/
theorem ssh_from_str_spec_witness :
    (⟨"host".data, 2222, "user".data⟩ : SSHConnection).user = "user".data ∧
    (⟨"host".data, 2222, "user".data⟩ : SSHConnection).port = 2222 ∧
    (⟨"host".data, 2222, "user".data⟩ : SSHConnection).host = "host".data :=
  (ssh_from_str_spec none true "user@host:2222".data).2
    ⟨"host".data, 2222, "user".data⟩ rfl

end Robopages
